import Mathlib

/-!
Verification of the O3DE EMotionFX dual-quaternion skin deformer
(`DualQuatSkinDeformer.h`) and morph-setup instance (`MorphSetupInstance.h`).

Numeric values are modelled over `ℚ` (idealised exact arithmetic in place of
single-precision floats); machine `uint32` identifiers carry no arithmetic in
the verified code paths and are modelled as `Nat`.
-/

/-- A 3-component vector, the position/normal type of the mesh buffers. -/
structure Vec3 where
  vx : ℚ
  vy : ℚ
  vz : ℚ
  deriving DecidableEq, Repr

/-- A quaternion with scalar part `qw` and vector part `(qx, qy, qz)`. -/
structure Quat where
  qw : ℚ
  qx : ℚ
  qy : ℚ
  qz : ℚ
  deriving DecidableEq, Repr

/-- Hamilton product of two quaternions. -/
def Quat.mul (p q : Quat) : Quat :=
  ⟨p.qw * q.qw - p.qx * q.qx - p.qy * q.qy - p.qz * q.qz,
   p.qw * q.qx + p.qx * q.qw + p.qy * q.qz - p.qz * q.qy,
   p.qw * q.qy - p.qx * q.qz + p.qy * q.qw + p.qz * q.qx,
   p.qw * q.qz + p.qx * q.qy - p.qy * q.qx + p.qz * q.qw⟩

instance : Mul Quat := ⟨Quat.mul⟩

/-- Quaternion conjugate. -/
def Quat.conj (q : Quat) : Quat := ⟨q.qw, -q.qx, -q.qy, -q.qz⟩

/-- Componentwise sum of two quaternions. -/
def Quat.add (p q : Quat) : Quat := ⟨p.qw + q.qw, p.qx + q.qx, p.qy + q.qy, p.qz + q.qz⟩

instance : Add Quat := ⟨Quat.add⟩

/-- Scalar multiple of a quaternion. -/
def Quat.smul (c : ℚ) (q : Quat) : Quat := ⟨c * q.qw, c * q.qx, c * q.qy, c * q.qz⟩

instance : SMul ℚ Quat := ⟨Quat.smul⟩

/-- Euclidean inner product of two quaternions, the hemisphere test of the blend. -/
def Quat.dot (p q : Quat) : ℚ := p.qw * q.qw + p.qx * q.qx + p.qy * q.qy + p.qz * q.qz

/-- Squared magnitude of a quaternion. -/
def Quat.normSq (q : Quat) : ℚ := q.dot q

/-- Embed a 3-vector as a pure quaternion (zero scalar part). -/
def Quat.ofVec (v : Vec3) : Quat := ⟨0, v.vx, v.vy, v.vz⟩

/-- Vector part of a quaternion. -/
def Quat.vec (q : Quat) : Vec3 := ⟨q.qx, q.qy, q.qz⟩

/-- Componentwise sum of two 3-vectors. -/
def Vec3.add (u v : Vec3) : Vec3 := ⟨u.vx + v.vx, u.vy + v.vy, u.vz + v.vz⟩

instance : Add Vec3 := ⟨Vec3.add⟩

/-- Scalar multiple of a 3-vector. -/
def Vec3.smul (c : ℚ) (v : Vec3) : Vec3 := ⟨c * v.vx, c * v.vy, c * v.vz⟩

instance : SMul ℚ Vec3 := ⟨Vec3.smul⟩

/-- A dual quaternion: rotation part `qr` and dual (translation-encoding) part `qd`,
mirroring `MCore::DualQuaternion`. -/
structure DualQuat where
  qr : Quat
  qd : Quat
  deriving DecidableEq, Repr

/-- Componentwise sum of two dual quaternions. -/
def DualQuat.add (a b : DualQuat) : DualQuat := ⟨a.qr + b.qr, a.qd + b.qd⟩

instance : Add DualQuat := ⟨DualQuat.add⟩

/-- Scalar multiple of a dual quaternion. -/
def DualQuat.smul (c : ℚ) (a : DualQuat) : DualQuat := ⟨c • a.qr, c • a.qd⟩

instance : SMul ℚ DualQuat := ⟨DualQuat.smul⟩

/-- The identity dual quaternion (no rotation, no translation). -/
def DualQuat.identity : DualQuat := ⟨⟨1, 0, 0, 0⟩, ⟨0, 0, 0, 0⟩⟩

/-- A dual quaternion is a rigid rotation-plus-translation exactly when its rotation
part is unit and the dual-quaternion orthogonality constraint holds
(spec section 3: `|q_r| = 1` and `q_r . q_d = 0`). -/
def DualQuat.isRigid (a : DualQuat) : Prop := a.qr.normSq = 1 ∧ a.qr.dot a.qd = 0

/-- Transformation of a point by a rigid (unit) dual quaternion: rotate by the
rotation part, then add the extracted translation `2 * vec(q_d * conj q_r)`
(spec section 4.2 step 3). -/
def DualQuat.transformPoint (a : DualQuat) (p : Vec3) : Vec3 :=
  (a.qr * Quat.ofVec p * a.qr.conj).vec + (2 : ℚ) • (a.qd * a.qr.conj).vec

/-- The invalid-index sentinel `MCORE_INVALIDINDEX32` (`0xFFFFFFFF`). -/
def MCORE_INVALIDINDEX32 : Nat := 0xFFFFFFFF

/-- `DualQuatSkinDeformer::BoneInfo`: the node number and the precomputed skinning
dual quaternion (`globalMatrix * inverse(bindPoseMatrix)`) of one local bone. -/
structure BoneInfo where
  mNodeNr : Nat
  mDualQuat : DualQuat
  deriving DecidableEq, Repr

/-- The deformer state: the bone table `m_bones` (an `AZStd::vector<BoneInfo>`,
modelled as its element list plus its reserved capacity) and the mesh the
deformer is bound to (modelled as an opaque identifier, the `m_mesh` pointer of
the `MeshDeformer` base). -/
structure Deformer where
  m_bones : List BoneInfo
  m_bonesCapacity : Nat
  m_mesh : Nat
  deriving DecidableEq, Repr

/-- `TYPE_ID` enum constant of `DualQuatSkinDeformer`. -/
def DualQuatSkinDeformer.TYPE_ID : Nat := 0x00000003

/-- `SUBTYPE_ID` enum constant of `DualQuatSkinDeformer`. -/
def DualQuatSkinDeformer.SUBTYPE_ID : Nat := 0x00000002

/-- Modelled from the spec: `GetType` (body in the missing `.cpp`) returns the
deformer's stable type identifier constant `TYPE_ID`. -/
def Deformer.GetType (_d : Deformer) : Nat := DualQuatSkinDeformer.TYPE_ID

/-- Modelled from the spec: `GetSubType` (body in the missing `.cpp`) returns the
deformer's stable sub-type identifier constant `SUBTYPE_ID`. -/
def Deformer.GetSubType (_d : Deformer) : Nat := DualQuatSkinDeformer.SUBTYPE_ID

/-- `GetNumLocalBones`: `return static_cast<uint32>(m_bones.size());`. -/
def Deformer.GetNumLocalBones (d : Deformer) : Nat := d.m_bones.length

/-- `GetLocalBone`: `return m_bones[index].mNodeNr;`. The vector indexing is
embedded fallibly: out of bounds yields `none`. -/
def Deformer.GetLocalBone (d : Deformer) (index : Nat) : Option Nat :=
  (d.m_bones.get? index).map BoneInfo.mNodeNr

/-- `ReserveLocalBones`: `m_bones.reserve(numBones);` — grows the reserved
capacity of the vector, never shrinking it and never touching the elements. -/
def Deformer.ReserveLocalBones (d : Deformer) (numBones : Nat) : Deformer :=
  Deformer.mk d.m_bones (max d.m_bonesCapacity numBones) d.m_mesh

/-- `MorphSetupInstance::MorphTarget`: per-instance morph-target record. -/
structure MorphTarget where
  mID : Nat
  mWeight : ℚ
  mIsInManualMode : Bool
  deriving DecidableEq, Repr

/-- The `MorphTarget()` default constructor:
`mID(MCORE_INVALIDINDEX32), mWeight(0.0f), mIsInManualMode(false)`. -/
def MorphTarget.init : MorphTarget := MorphTarget.mk MCORE_INVALIDINDEX32 0 false

/-- `MorphTarget::GetID`. -/
def MorphTarget.GetID (t : MorphTarget) : Nat := t.mID

/-- `MorphTarget::GetWeight`. -/
def MorphTarget.GetWeight (t : MorphTarget) : ℚ := t.mWeight

/-- `MorphTarget::GetIsInManualMode`. -/
def MorphTarget.GetIsInManualMode (t : MorphTarget) : Bool := t.mIsInManualMode

/-- `MorphTarget::SetID`. -/
def MorphTarget.SetID (t : MorphTarget) (id : Nat) : MorphTarget :=
  MorphTarget.mk id t.mWeight t.mIsInManualMode

/-- `MorphTarget::SetWeight`. -/
def MorphTarget.SetWeight (t : MorphTarget) (weight : ℚ) : MorphTarget :=
  MorphTarget.mk t.mID weight t.mIsInManualMode

/-- `MorphTarget::SetManualMode`. -/
def MorphTarget.SetManualMode (t : MorphTarget) (enabled : Bool) : MorphTarget :=
  MorphTarget.mk t.mID t.mWeight enabled

/-- Modelled from the spec: the body of `FindLocalBoneIndex` is in the missing
`.cpp`; the spec prescribes a linear search over the bone table that returns an
explicit not-found outcome. Returns the index of the first entry whose
`mNodeNr` matches, `none` when absent. -/
def findBoneIdx (nodeIndex : Nat) : List BoneInfo → Option Nat
  | [] => none
  | b :: rest =>
    if b.mNodeNr = nodeIndex then some 0
    else (findBoneIdx nodeIndex rest).map (· + 1)

/-- `FindLocalBoneIndex(nodeIndex)`: the `AZ::Outcome<size_t>` result is embedded
as `Option Nat`. -/
def Deformer.FindLocalBoneIndex (d : Deformer) (nodeIndex : Nat) : Option Nat :=
  findBoneIdx nodeIndex d.m_bones

/-- Modelled from the spec: the `Reinitialize` scan (body in the missing `.cpp`).
It walks the stream of bone node ids referenced by the mesh's skin influences in
discovery order; a bone already present in the table is skipped, a bone the pose
provider cannot resolve is skipped, and any other bone is appended with its
freshly computed skinning transform. -/
def buildBoneTable (pose : Nat → Option DualQuat) : List Nat → List BoneInfo → List BoneInfo
  | [], table => table
  | n :: rest, table =>
    match findBoneIdx n table with
    | some _ => buildBoneTable pose rest table
    | none =>
      match pose n with
      | some dq => buildBoneTable pose rest (table ++ [BoneInfo.mk n dq])
      | none => buildBoneTable pose rest table

/-- Modelled from the spec: `Reinitialize` (body in the missing `.cpp`) clears
any previous bone-table contents and rebuilds the table from scratch from the
skeleton pose provider and the mesh's referenced bone stream. -/
def Deformer.ReinitializeBones (d : Deformer) (pose : Nat → Option DualQuat)
    (refs : List Nat) : Deformer :=
  Deformer.mk (buildBoneTable pose refs []) d.m_bonesCapacity d.m_mesh

/-- Modelled from the spec: `Clone(mesh)` (body in the missing `.cpp`) produces a
new deformer instance bound to the given mesh, copying no bone-table state. -/
def Deformer.Clone (_d : Deformer) (mesh : Nat) : Deformer :=
  Deformer.mk [] 0 mesh

/-- Dual quaternion of an influence's local bone, read from the bone table;
out-of-range local bone indices fall back to the identity (the underlying C++
indexing has no defined out-of-range value). -/
def lookupBoneDQ (boneInfos : List BoneInfo) (idx : Nat) : DualQuat :=
  ((boneInfos.get? idx).map BoneInfo.mDualQuat).getD DualQuat.identity

/-- Modelled from the spec: step 1 of the per-vertex algorithm of `SkinRange`
(body in the missing `.cpp`): accumulate the weighted dual quaternions of the
vertex's influences, flipping each rotation quaternion to the hemisphere of the
first influence's rotation quaternion when their dot product is negative. -/
def accumInfluences (boneInfos : List BoneInfo) : List (Nat × ℚ) → DualQuat
  | [] => DualQuat.mk ⟨0, 0, 0, 0⟩ ⟨0, 0, 0, 0⟩
  | (b0, w0) :: rest =>
    let first := lookupBoneDQ boneInfos b0
    rest.foldl
      (fun acc bw =>
        let dq := lookupBoneDQ boneInfos bw.1
        let s : ℚ := if first.qr.dot dq.qr < 0 then -1 else 1
        acc + (bw.2 * s) • dq)
      (w0 • first)

/-- Modelled from the spec: steps 2 and 3 of the per-vertex algorithm of
`SkinRange`: normalize the accumulated dual quaternion (divide rotation and dual
parts by the rotation magnitude and re-orthogonalize) and rigidly transform the
bind-pose position by it. For the position this composite is expressed through
the squared rotation magnitude, to which it is algebraically equal whenever the
rotation magnitude is positive; this avoids the square root. -/
def skinPosition (boneInfos : List BoneInfo) (infl : List (Nat × ℚ)) (orgPos : Vec3) : Vec3 :=
  let acc := accumInfluences boneInfos infl
  (1 / acc.qr.normSq) •
    ((acc.qr * Quat.ofVec orgPos * acc.qr.conj).vec + (2 : ℚ) • (acc.qd * acc.qr.conj).vec)

/-- Modelled from the spec: the bind-pose normal is transformed by the rotation
part only (no translation), magnitude left unnormalized; expressed through the
squared rotation magnitude like `skinPosition`. -/
def skinNormal (boneInfos : List BoneInfo) (infl : List (Nat × ℚ)) (orgNormal : Vec3) : Vec3 :=
  let acc := accumInfluences boneInfos infl
  (1 / acc.qr.normSq) • (acc.qr * Quat.ofVec orgNormal * acc.qr.conj).vec

/-- The mesh data read by the skinning loop: vertex count, bind-pose position and
normal buffers, and the per-vertex skin influences (local bone index, weight). -/
structure Mesh where
  numVertices : Nat
  orgPos : Nat → Vec3
  orgNormal : Nat → Vec3
  influences : Nat → List (Nat × ℚ)

/-- Deformed output (position, normal) of one vertex. -/
def skinVertex (mesh : Mesh) (boneInfos : List BoneInfo) (i : Nat) : Vec3 × Vec3 :=
  (skinPosition boneInfos (mesh.influences i) (mesh.orgPos i),
   skinNormal boneInfos (mesh.influences i) (mesh.orgNormal i))

/-- Modelled from the spec: `SkinRange(mesh, startVertex, endVertex, boneInfos)`
(body in the missing `.cpp`) writes the deformed outputs of the vertices in
`[startVertex, endVertex)`; the in-place output buffers are modelled as an
index-to-value map. -/
def SkinRange (mesh : Mesh) (boneInfos : List BoneInfo) (startVertex endVertex : Nat)
    (out : Nat → Vec3 × Vec3) : Nat → Vec3 × Vec3 :=
  fun i => if startVertex ≤ i ∧ i < endVertex then skinVertex mesh boneInfos i else out i

/-- Modelled from the spec: `Update` step 2 partitions `[0, numVertices)` into
contiguous batches of at most `batchSize` vertices (the code's
`s_numVerticesPerBatch = 10000`), one `SkinRange` task per batch. -/
def makeBatches (batchSize numVertices : Nat) : List (Nat × Nat) :=
  (List.range ((numVertices + batchSize - 1) / batchSize)).map
    (fun k => (k * batchSize, min ((k + 1) * batchSize) numVertices))

/-- Run the batch tasks sequentially in the order given, threading the output
buffers; any interleaving of the disjoint-range writes is equivalent to some
such order. -/
def runBatches (mesh : Mesh) (boneInfos : List BoneInfo) (batches : List (Nat × Nat))
    (out : Nat → Vec3 × Vec3) : Nat → Vec3 × Vec3 :=
  batches.foldl (fun o p => SkinRange mesh boneInfos p.1 p.2 o) out

/-- A sample one-bone rigid pose used by the concrete witnesses: rotation
(3/5, 4/5, 0, 0), orthogonal dual part. -/
def sampleDQ : DualQuat := DualQuat.mk ⟨3/5, 4/5, 0, 0⟩ ⟨-4/10, 3/10, 0, 0⟩

/-- A sample two-vertex mesh used by the concrete witnesses. -/
def sampleMesh : Mesh :=
  Mesh.mk 2 (fun _ => ⟨1, 0, 0⟩) (fun _ => ⟨0, 0, 1⟩) (fun _ => [(0, 1)])

/-- Sample initial output buffer used by the concrete witnesses. -/
def sampleOut : Nat → Vec3 × Vec3 := fun _ => (⟨0, 0, 0⟩, ⟨0, 0, 0⟩)

/-- C7: `GetType` and `GetSubType` return the fixed constants `TYPE_ID = 0x00000003`
and `SUBTYPE_ID = 0x00000002` for every deformer instance. -/
theorem c7_type_identity (d : Deformer) :
    d.GetType = 0x00000003 ∧ d.GetSubType = 0x00000002 := by
  constructor <;> rfl

/-- C8: `ReserveLocalBones` changes neither `GetNumLocalBones` nor any existing
bone-table entry: reservation is a capacity hint, distinct from insertion. -/
theorem c8_reserve_frame (d : Deformer) (numBones : Nat) :
    (d.ReserveLocalBones numBones).GetNumLocalBones = d.GetNumLocalBones ∧
    (d.ReserveLocalBones numBones).m_bones = d.m_bones := by
  constructor <;> rfl

/-- C9: a default-constructed `MorphTarget` has ID `MCORE_INVALIDINDEX32`,
weight `0`, and manual mode disabled, and each value only changes through the
corresponding setter. -/
theorem c9_morph_target_defaults :
    MorphTarget.init.GetID = MCORE_INVALIDINDEX32 ∧
    MorphTarget.init.GetWeight = 0 ∧
    MorphTarget.init.GetIsInManualMode = false ∧
    (∀ t : MorphTarget, ∀ id, ((t.SetID id).GetID = id ∧
        (t.SetID id).GetWeight = t.GetWeight ∧
        (t.SetID id).GetIsInManualMode = t.GetIsInManualMode)) ∧
    (∀ t : MorphTarget, ∀ w, ((t.SetWeight w).GetWeight = w ∧
        (t.SetWeight w).GetID = t.GetID ∧
        (t.SetWeight w).GetIsInManualMode = t.GetIsInManualMode)) ∧
    (∀ t : MorphTarget, ∀ b, ((t.SetManualMode b).GetIsInManualMode = b ∧
        (t.SetManualMode b).GetID = t.GetID ∧
        (t.SetManualMode b).GetWeight = t.GetWeight)) := by
  refine ⟨rfl, rfl, rfl, ?_, ?_, ?_⟩ <;> intro t v <;> exact ⟨rfl, rfl, rfl⟩

/-- C10: for every index `i < GetNumLocalBones`, `GetLocalBone i` returns the
`mNodeNr` stored in the `i`-th bone-table entry; the out-of-bounds branch of the
embedded indexing is unreachable under that precondition. -/
theorem c10_get_local_bone (d : Deformer) (i : Nat) (h : i < d.GetNumLocalBones) :
    ∃ hlen : i < d.m_bones.length,
      d.GetLocalBone i = some (d.m_bones.get ⟨i, hlen⟩).mNodeNr := by
  have hlen : i < d.m_bones.length := h
  refine ⟨hlen, ?_⟩
  unfold Deformer.GetLocalBone
  rw [List.get?_eq_get hlen]
  rfl

/-- Witness for C10 at a concrete one-bone deformer and index 0. -/
theorem c10_get_local_bone_witness :
    0 < (Deformer.mk [BoneInfo.mk 7 DualQuat.identity] 0 0).GetNumLocalBones ∧
    ∃ hlen : 0 < (Deformer.mk [BoneInfo.mk 7 DualQuat.identity] 0 0).m_bones.length,
      (Deformer.mk [BoneInfo.mk 7 DualQuat.identity] 0 0).GetLocalBone 0 =
        some ((Deformer.mk [BoneInfo.mk 7 DualQuat.identity] 0 0).m_bones.get ⟨0, hlen⟩).mNodeNr :=
  ⟨by decide, c10_get_local_bone (Deformer.mk [BoneInfo.mk 7 DualQuat.identity] 0 0) 0 (by decide)⟩

theorem findBoneIdx_isSome_iff (n : Nat) (table : List BoneInfo) :
    (findBoneIdx n table).isSome ↔ n ∈ table.map BoneInfo.mNodeNr := by
  induction table with
  | nil => simp [findBoneIdx]
  | cons b rest ih =>
    by_cases h : b.mNodeNr = n
    · simp [findBoneIdx, h]
    · simp [findBoneIdx, h, ih, Ne.symm h]

theorem findBoneIdx_some (n : Nat) (table : List BoneInfo) (i : Nat)
    (h : findBoneIdx n table = some i) :
    ∃ hlen : i < table.length, (table.get ⟨i, hlen⟩).mNodeNr = n := by
  induction table generalizing i with
  | nil => simp [findBoneIdx] at h
  | cons b rest ih =>
    by_cases hb : b.mNodeNr = n
    · simp [findBoneIdx, hb] at h
      exact ⟨by simp [← h], by simp [← h, hb]⟩
    · simp [findBoneIdx, hb] at h
      obtain ⟨j, hj, rfl⟩ := h
      obtain ⟨hl, hget⟩ := ih j hj
      exact ⟨by simpa using Nat.succ_lt_succ hl, by simpa using hget⟩

theorem buildBoneTable_mem (pose : Nat → Option DualQuat) (refs : List Nat) :
    ∀ table n', (∀ n ∈ refs, (pose n).isSome) →
      (n' ∈ (buildBoneTable pose refs table).map BoneInfo.mNodeNr ↔
        n' ∈ table.map BoneInfo.mNodeNr ∨ n' ∈ refs) := by
  induction refs with
  | nil => intro table n' _; simp [buildBoneTable]
  | cons n rest ih =>
    intro table n' hres
    have hrest : ∀ m ∈ rest, (pose m).isSome := fun m hm => hres m (List.mem_cons_of_mem _ hm)
    rcases hfind : findBoneIdx n table with _ | i
    · rcases hp : pose n with _ | dq
      · exact absurd (hres n (List.mem_cons_self _ _)) (by simp [hp])
      · have := ih (table ++ [BoneInfo.mk n dq]) n' hrest
        simp only [buildBoneTable, hfind, hp]
        rw [this]
        simp [List.mem_cons, or_assoc]
    · have hn : n ∈ table.map BoneInfo.mNodeNr := by
        rw [← findBoneIdx_isSome_iff]; simp [hfind]
      have := ih table n' hrest
      simp only [buildBoneTable, hfind]
      rw [this]
      constructor
      · intro hc; rcases hc with hc | hc
        · exact Or.inl hc
        · exact Or.inr (List.mem_cons_of_mem _ hc)
      · intro hc; rcases hc with hc | hc
        · exact Or.inl hc
        · rcases List.mem_cons.mp hc with rfl | hc
          · exact Or.inl hn
          · exact Or.inr hc

theorem buildBoneTable_nodup (pose : Nat → Option DualQuat) (refs : List Nat) :
    ∀ table, (table.map BoneInfo.mNodeNr).Nodup →
      ((buildBoneTable pose refs table).map BoneInfo.mNodeNr).Nodup := by
  induction refs with
  | nil => intro table ht; simpa [buildBoneTable]
  | cons n rest ih =>
    intro table ht
    rcases hfind : findBoneIdx n table with _ | i
    · have hn : n ∉ table.map BoneInfo.mNodeNr := by
        rw [← findBoneIdx_isSome_iff]; simp [hfind]
      rcases hp : pose n with _ | dq
      · simpa [buildBoneTable, hfind, hp] using ih table ht
      · have hmap : ((table ++ [BoneInfo.mk n dq]).map BoneInfo.mNodeNr).Nodup := by
          simp [List.nodup_append, ht, hn]
        simpa [buildBoneTable, hfind, hp] using ih _ hmap
    · simpa [buildBoneTable, hfind] using ih table ht

/-- C6: `FindLocalBoneIndex` returns an explicit not-found result exactly when no
bone-table entry has the requested node id, and when it returns an index that
index is in range and names an entry with that node id. -/
theorem c6_find_local_bone_index (d : Deformer) (nodeIndex : Nat) :
    (d.FindLocalBoneIndex nodeIndex = none ↔
      ∀ b ∈ d.m_bones, b.mNodeNr ≠ nodeIndex) ∧
    (∀ i, d.FindLocalBoneIndex nodeIndex = some i →
      ∃ hlen : i < d.m_bones.length, (d.m_bones.get ⟨i, hlen⟩).mNodeNr = nodeIndex) := by
  constructor
  · rw [← Option.not_isSome_iff_eq_none, Deformer.FindLocalBoneIndex, findBoneIdx_isSome_iff]
    simp [eq_comm]
  · intro i hi
    exact findBoneIdx_some nodeIndex d.m_bones i hi

/-- Witness for C6: a concrete two-bone table, a miss and a hit. -/
theorem c6_find_local_bone_index_witness :
    ((Deformer.mk [BoneInfo.mk 4 DualQuat.identity, BoneInfo.mk 9 DualQuat.identity] 0 0).FindLocalBoneIndex 9 = some 1 →
      ∃ hlen : 1 < [BoneInfo.mk 4 DualQuat.identity, BoneInfo.mk 9 DualQuat.identity].length,
        ([BoneInfo.mk 4 DualQuat.identity, BoneInfo.mk 9 DualQuat.identity].get ⟨1, hlen⟩).mNodeNr = 9) ∧
    ((Deformer.mk [BoneInfo.mk 4 DualQuat.identity, BoneInfo.mk 9 DualQuat.identity] 0 0).FindLocalBoneIndex 5 = none ↔
      ∀ b ∈ [BoneInfo.mk 4 DualQuat.identity, BoneInfo.mk 9 DualQuat.identity], b.mNodeNr ≠ 5) :=
  ⟨(c6_find_local_bone_index (Deformer.mk [BoneInfo.mk 4 DualQuat.identity, BoneInfo.mk 9 DualQuat.identity] 0 0) 9).2 1,
   (c6_find_local_bone_index (Deformer.mk [BoneInfo.mk 4 DualQuat.identity, BoneInfo.mk 9 DualQuat.identity] 0 0) 5).1⟩

/-- C1: `Reinitialize` builds the bone table with exactly one entry per distinct
referenced bone (no duplicate node id, membership exactly the referenced bones),
and for discovery order A, B, C, A, D of distinct bones the table order is
[A, B, C, D]. -/
theorem c1_reinitialize_table (d : Deformer) (pose : Nat → Option DualQuat) :
    (∀ refs : List Nat, (∀ n ∈ refs, (pose n).isSome) →
      (((d.ReinitializeBones pose refs).m_bones.map BoneInfo.mNodeNr).Nodup ∧
        ∀ n, n ∈ (d.ReinitializeBones pose refs).m_bones.map BoneInfo.mNodeNr ↔ n ∈ refs)) ∧
    (∀ A B C D : Nat, ∀ qa qb qc qd : DualQuat,
      A ≠ B → A ≠ C → A ≠ D → B ≠ C → B ≠ D → C ≠ D →
      pose A = some qa → pose B = some qb → pose C = some qc → pose D = some qd →
      (d.ReinitializeBones pose [A, B, C, A, D]).m_bones.map BoneInfo.mNodeNr = [A, B, C, D]) := by
  constructor
  · intro refs hres
    refine ⟨buildBoneTable_nodup pose refs [] (by simp), fun n => ?_⟩
    have := buildBoneTable_mem pose refs [] n hres
    simpa [Deformer.ReinitializeBones] using this
  · intro A B C D qa qb qc qd hAB hAC hAD hBC hBD hCD hA hB hC hD
    simp [Deformer.ReinitializeBones, buildBoneTable, findBoneIdx, hA, hB, hC, hD,
      hAB, hAC, hAD, hBC, hBD, hCD, Ne.symm hAB, Ne.symm hAC, Ne.symm hAD,
      Ne.symm hBC, Ne.symm hBD, Ne.symm hCD]

/-- Witness for C1: a concrete pose resolving every node and the discovery
stream 0, 1, 2, 0, 3. -/
theorem c1_reinitialize_table_witness :
    (0 : Nat) ≠ 1 ∧
    ((Deformer.mk [] 0 0).ReinitializeBones (fun _ => some DualQuat.identity)
        [0, 1, 2, 0, 3]).m_bones.map BoneInfo.mNodeNr = [0, 1, 2, 3] :=
  ⟨by decide,
    (c1_reinitialize_table (Deformer.mk [] 0 0) (fun _ => some DualQuat.identity)).2
      0 1 2 3 DualQuat.identity DualQuat.identity DualQuat.identity DualQuat.identity
      (by decide) (by decide) (by decide) (by decide) (by decide) (by decide)
      rfl rfl rfl rfl⟩

/-- C4: `Reinitialize` fully rebuilds: the resulting bone table is independent of
the deformer's previous bone-table state, hence two consecutive calls with
unchanged inputs yield identical tables (same entries, same order). -/
theorem c4_reinitialize_idempotent (d d' : Deformer) (pose : Nat → Option DualQuat)
    (refs : List Nat) :
    ((d.ReinitializeBones pose refs).ReinitializeBones pose refs).m_bones =
      (d.ReinitializeBones pose refs).m_bones ∧
    (d.ReinitializeBones pose refs).m_bones = (d'.ReinitializeBones pose refs).m_bones := by
  constructor <;> rfl

/-- C5: `Clone(mesh)` yields a deformer bound to the given mesh with an empty
bone table, and the clone's state is independent of the original's bone table,
so later mutation of the original cannot affect it. -/
theorem c5_clone_isolation (d : Deformer) (mesh : Nat) :
    (d.Clone mesh).m_mesh = mesh ∧
    (d.Clone mesh).m_bones = [] ∧
    (∀ bones cap m, (Deformer.mk bones cap m).Clone mesh = d.Clone mesh) := by
  exact ⟨rfl, rfl, fun _ _ _ => rfl⟩

theorem quat_smul_def (c : ℚ) (q : Quat) :
    c • q = ⟨c * q.qw, c * q.qx, c * q.qy, c * q.qz⟩ := rfl

theorem vec3_smul_def (c : ℚ) (v : Vec3) :
    c • v = ⟨c * v.vx, c * v.vy, c * v.vz⟩ := rfl

theorem dq_smul_def (c : ℚ) (a : DualQuat) : c • a = ⟨c • a.qr, c • a.qd⟩ := rfl

theorem quat_one_smul (q : Quat) : (1 : ℚ) • q = q := by
  cases q; simp [quat_smul_def]

theorem vec3_one_smul (v : Vec3) : (1 : ℚ) • v = v := by
  cases v; simp [vec3_smul_def]

theorem dq_one_smul (a : DualQuat) : (1 : ℚ) • a = a := by
  cases a; simp [dq_smul_def, quat_one_smul]

/-- C2: a vertex with a single influence of weight 1 on a bone with a rigid
(unit, orthogonal) skinning dual quaternion is deformed to exactly the bind-pose
position transformed by that dual quaternion, for an arbitrary
rotation-plus-translation pose. -/
theorem c2_rigid_single_influence (boneInfos : List BoneInfo) (bi : Nat) (b : BoneInfo)
    (orgPos : Vec3) (hget : boneInfos.get? bi = some b) (hrigid : b.mDualQuat.isRigid) :
    skinPosition boneInfos [(bi, 1)] orgPos = b.mDualQuat.transformPoint orgPos := by
  obtain ⟨hunit, horth⟩ := hrigid
  have hget' : boneInfos[bi]? = some b := by simpa using hget
  have hacc : accumInfluences boneInfos [(bi, 1)] = b.mDualQuat := by
    simp [accumInfluences, lookupBoneDQ, hget', dq_one_smul]
  simp only [skinPosition, hacc, hunit, DualQuat.transformPoint]
  norm_num [vec3_one_smul]

/-- Witness for C2: the sample rigid pose applied to a concrete bind position. -/
theorem c2_rigid_single_influence_witness :
    [BoneInfo.mk 5 sampleDQ].get? 0 = some (BoneInfo.mk 5 sampleDQ) ∧
    (BoneInfo.mk 5 sampleDQ).mDualQuat.isRigid ∧
    skinPosition [BoneInfo.mk 5 sampleDQ] [(0, 1)] ⟨1, 0, 0⟩ =
      (BoneInfo.mk 5 sampleDQ).mDualQuat.transformPoint ⟨1, 0, 0⟩ :=
  ⟨rfl, by constructor <;> norm_num [DualQuat.isRigid, Quat.normSq, Quat.dot, sampleDQ],
   c2_rigid_single_influence [BoneInfo.mk 5 sampleDQ] 0 (BoneInfo.mk 5 sampleDQ) ⟨1, 0, 0⟩ rfl
     (by constructor <;> norm_num [DualQuat.isRigid, Quat.normSq, Quat.dot, sampleDQ])⟩

theorem runBatches_apply (mesh : Mesh) (boneInfos : List BoneInfo) :
    ∀ (batches : List (Nat × Nat)) (out : Nat → Vec3 × Vec3) (i : Nat),
      runBatches mesh boneInfos batches out i =
        if ∃ p ∈ batches, p.1 ≤ i ∧ i < p.2 then skinVertex mesh boneInfos i else out i := by
  intro batches
  induction batches with
  | nil => intro out i; simp [runBatches]
  | cons p rest ih =>
    intro out i
    rw [show runBatches mesh boneInfos (p :: rest) out =
          runBatches mesh boneInfos rest (SkinRange mesh boneInfos p.1 p.2 out) from rfl, ih]
    by_cases hrest : ∃ q ∈ rest, q.1 ≤ i ∧ i < q.2
    · obtain ⟨q, hq, hqi⟩ := hrest
      rw [if_pos ⟨q, hq, hqi⟩, if_pos ⟨q, List.mem_cons_of_mem _ hq, hqi⟩]
    · have hSkin : SkinRange mesh boneInfos p.1 p.2 out i =
          if p.1 ≤ i ∧ i < p.2 then skinVertex mesh boneInfos i else out i := rfl
      rw [if_neg hrest, hSkin]
      by_cases hp : p.1 ≤ i ∧ i < p.2
      · rw [if_pos hp, if_pos ⟨p, List.mem_cons_self _ _, hp⟩]
      · rw [if_neg hp, if_neg ?hno]
        case hno =>
          rintro ⟨q, hq, hqi⟩
          rcases List.mem_cons.mp hq with rfl | hq'
          · exact hp hqi
          · exact hrest ⟨q, hq', hqi⟩

theorem makeBatches_covers (batchSize numVertices i : Nat) (hsz : 0 < batchSize) :
    (∃ p ∈ makeBatches batchSize numVertices, p.1 ≤ i ∧ i < p.2) ↔ i < numVertices := by
  constructor
  · rintro ⟨p, hp, _, hlt⟩
    simp only [makeBatches, List.mem_map, List.mem_range] at hp
    obtain ⟨k, _, rfl⟩ := hp
    exact lt_of_lt_of_le hlt (min_le_right _ _)
  · intro hn
    refine ⟨(i / batchSize * batchSize, min ((i / batchSize + 1) * batchSize) numVertices),
      ?_, Nat.div_mul_le_self i batchSize, ?_⟩
    · simp only [makeBatches, List.mem_map, List.mem_range]
      refine ⟨i / batchSize, ?_, rfl⟩
      have h1 : i / batchSize ≤ (numVertices - 1) / batchSize :=
        Nat.div_le_div_right (by omega)
      have h2 : (numVertices + batchSize - 1) / batchSize = (numVertices - 1) / batchSize + 1 := by
        rw [show numVertices + batchSize - 1 = (numVertices - 1) + batchSize by omega,
          Nat.add_div_right _ hsz]
      rw [h2]
      exact Nat.lt_succ_of_le h1
    · refine lt_min ?_ hn
      have hmod := Nat.mod_lt i hsz
      calc i = batchSize * (i / batchSize) + i % batchSize := (Nat.div_add_mod i batchSize).symm
        _ < batchSize * (i / batchSize) + batchSize := Nat.add_lt_add_left hmod _
        _ = (i / batchSize + 1) * batchSize := by ring

/-- C3: skinning with the vertex range cut into batches of any positive size
produces the same deformed output as a single batch covering the whole range,
and the output of a set of batch tasks is independent of their execution
order. -/
theorem c3_batch_independence (mesh : Mesh) (boneInfos : List BoneInfo)
    (out : Nat → Vec3 × Vec3) (batchSize : Nat) (hsz : 0 < batchSize) (i : Nat) :
    runBatches mesh boneInfos (makeBatches batchSize mesh.numVertices) out i =
      runBatches mesh boneInfos [(0, mesh.numVertices)] out i ∧
    (∀ bs bs' : List (Nat × Nat), bs.Perm bs' →
      runBatches mesh boneInfos bs out i = runBatches mesh boneInfos bs' out i) := by
  constructor
  · rw [runBatches_apply, runBatches_apply]
    have h1 := makeBatches_covers batchSize mesh.numVertices i hsz
    have h2 : (∃ p ∈ [((0 : Nat), mesh.numVertices)], p.1 ≤ i ∧ i < p.2) ↔
        i < mesh.numVertices := by simp
    by_cases h : i < mesh.numVertices
    · rw [if_pos (h1.mpr h), if_pos (h2.mpr h)]
    · rw [if_neg (fun hc => h (h1.mp hc)), if_neg (fun hc => h (h2.mp hc))]
  · intro bs bs' hperm
    rw [runBatches_apply, runBatches_apply]
    have hiff : (∃ p ∈ bs, p.1 ≤ i ∧ i < p.2) ↔ (∃ p ∈ bs', p.1 ≤ i ∧ i < p.2) := by
      constructor <;> rintro ⟨p, hp, hpi⟩
      · exact ⟨p, hperm.mem_iff.mp hp, hpi⟩
      · exact ⟨p, hperm.mem_iff.mpr hp, hpi⟩
    by_cases h : ∃ p ∈ bs, p.1 ≤ i ∧ i < p.2
    · rw [if_pos h, if_pos (hiff.mp h)]
    · rw [if_neg h, if_neg (fun hc => h (hiff.mpr hc))]

/-- Witness for C3: the sample mesh with batch size 1 at vertex 0. -/
theorem c3_batch_independence_witness :
    0 < 1 ∧
    (runBatches sampleMesh [BoneInfo.mk 5 sampleDQ] (makeBatches 1 sampleMesh.numVertices)
        sampleOut 0 =
      runBatches sampleMesh [BoneInfo.mk 5 sampleDQ] [(0, sampleMesh.numVertices)] sampleOut 0 ∧
    (∀ bs bs' : List (Nat × Nat), bs.Perm bs' →
      runBatches sampleMesh [BoneInfo.mk 5 sampleDQ] bs sampleOut 0 =
        runBatches sampleMesh [BoneInfo.mk 5 sampleDQ] bs' sampleOut 0)) :=
  ⟨by decide,
   c3_batch_independence sampleMesh [BoneInfo.mk 5 sampleDQ] sampleOut 1 (by decide) 0⟩
